import Mathlib

/-!
Shallow embedding of the loxilb-ingress reconciler (`src/managers/ingress.go`,
current version) together with proofs about its reconciliation pass.

Kubernetes objects (Ingress, Endpoints, Service, Pod) are embedded as plain
structures; the read-only object store is a record of lookup functions where
`none` models a failed `Get`/`List` call.  Go `int32` ports are embedded as
`Int`, and the `uint16(...)` conversions are made explicit via `uint16OfInt`.
Side effects of one reconciliation pass (DeleteByName / Create calls against
the remote rule store) are collected into an explicit trace.
-/

namespace LoxilbIngress

/-- Go `uint16(v)` conversion applied to an `int32` value: the low 16 bits. -/
def uint16OfInt (p : Int) : Nat := (p.emod 65536).toNat

/-- `loxiapi.LoadBalancerEndpoint`: one backend endpoint of a rule. -/
structure LoadBalancerEndpoint where
  endpointIP : String
  targetPort : Nat
  weight : Nat
  deriving DecidableEq, Repr

/-- `loxiapi.LoadBalancerService`: the service half of a load-balancer rule. -/
structure LoadBalancerService where
  externalIP : String
  protocol : String
  mode : Nat
  name : String
  host : String
  security : Int
  port : Nat
  sel : Nat
  deriving DecidableEq, Repr

/-- `loxiapi.LoadBalancerModel`: a full rule (service + endpoints). -/
structure LoadBalancerModel where
  service : LoadBalancerService
  endpoints : List LoadBalancerEndpoint
  deriving DecidableEq, Repr

/-- `corev1.EndpointAddress` (only the IP is read by the reconciler). -/
structure EndpointAddress where
  ip : String
  deriving DecidableEq, Repr

/-- `corev1.EndpointPort` (name and port of one subset port record). -/
structure EndpointPort where
  name : String
  port : Int
  deriving DecidableEq, Repr

/-- `corev1.EndpointSubset`: ready addresses plus port records. -/
structure EndpointSubset where
  addresses : List EndpointAddress
  ports : List EndpointPort
  deriving DecidableEq, Repr

/-- `corev1.Endpoints`: the endpoints object of a backend service. -/
structure Endpoints where
  subsets : List EndpointSubset
  deriving DecidableEq, Repr

/-- `intstr.IntOrString`: a numeric or named target port. -/
inductive IntOrString where
  | int (v : Int) : IntOrString
  | str (s : String) : IntOrString
  deriving DecidableEq, Repr

/-- Decimal-digit accumulator used by the `strconv.Atoi` embedding. -/
def digitsToNatAux : List Char → Nat → Option Nat
  | [], acc => some acc
  | c :: cs, acc =>
    if c.isDigit then digitsToNatAux cs (acc * 10 + (c.toNat - 48))
    else none

/-- All-digit parse of a non-empty character list. -/
def digitsToNat : List Char → Option Nat
  | [] => none
  | cs => digitsToNatAux cs 0

/-- Go `strconv.Atoi`, restricted to what `IntValue()` observes: an optional
sign followed by decimal digits; `none` models the error case (on which the
caller falls back to the accompanying value 0). -/
def goAtoi (s : String) : Option Int :=
  match s.data with
  | '+' :: cs => (digitsToNat cs).map (fun n => (n : Int))
  | '-' :: cs => (digitsToNat cs).map (fun n => -(n : Int))
  | cs => (digitsToNat cs).map (fun n => (n : Int))

/-- Go `strings.ToLower` (character-wise lowering). -/
def goToLower (s : String) : String := String.mk (s.data.map Char.toLower)

/-- `intstr.IntOrString.IntValue()`: the numeric value; a named value is run
through `strconv.Atoi`, whose failure yields 0 (the error is discarded). -/
def IntOrString.intValue : IntOrString → Int
  | .int v => v
  | .str s => match goAtoi s with
    | some v => v
    | none => 0

/-- `intstr.IntOrString.String()`. -/
def IntOrString.toStr : IntOrString → String
  | .int v => toString v
  | .str s => s

/-- `corev1.ServicePort`: one declared port of a Service. -/
structure ServicePort where
  protocol : String
  port : Int
  targetPort : IntOrString
  deriving DecidableEq, Repr

/-- `corev1.ContainerPort`. -/
structure ContainerPort where
  name : String
  containerPort : Int
  deriving DecidableEq, Repr

/-- `corev1.Container` (only its declared ports are read). -/
structure Container where
  ports : List ContainerPort
  deriving DecidableEq, Repr

/-- `corev1.Pod` (only the containers of its spec are read). -/
structure Pod where
  containers : List Container
  deriving DecidableEq, Repr

/-- `netv1.IngressPortStatus` / `corev1.PortStatus` (identical field sets). -/
structure PortStatus where
  port : Int
  protocol : String
  error : Option String
  deriving DecidableEq, Repr

/-- `netv1.IngressLoadBalancerIngress` / `corev1.LoadBalancerIngress`
(identical field sets): one externally assigned address entry. -/
structure LBIngressEntry where
  ip : String
  hostname : String
  ports : List PortStatus
  deriving DecidableEq, Repr

/-- `corev1.Service`: the fields read by the reconciler (name, label selector,
declared ports, load-balancer status entries). -/
structure Service where
  name : String
  selector : List (String × String)
  ports : List ServicePort
  status : List LBIngressEntry
  deriving DecidableEq, Repr

/-- `netv1.IngressServiceBackend` with its `ServiceBackendPort.Number`. -/
structure IngressServiceBackend where
  name : String
  portNumber : Int
  deriving DecidableEq, Repr

/-- `netv1.HTTPIngressPath`: `none` models `path.Backend.Service == nil`. -/
structure HTTPIngressPath where
  backend : Option IngressServiceBackend
  deriving DecidableEq, Repr

/-- `netv1.IngressRule`: `http = none` models `rule.HTTP == nil`. -/
structure IngressRule where
  host : String
  http : Option (List HTTPIngressPath)
  deriving DecidableEq, Repr

/-- `netv1.IngressTLS` (only the host list is read). -/
structure IngressTLS where
  hosts : List String
  deriving DecidableEq, Repr

/-- `netv1.Ingress`: the fields read (and the status written) by the
reconciler.  Annotations are an association list; first match wins. -/
structure Ingress where
  ns : String
  name : String
  annotations : List (String × String)
  rules : List IngressRule
  tls : List IngressTLS
  status : List LBIngressEntry
  deriving DecidableEq, Repr

/-- Go map lookup `ingress.Annotations[key]` as an `Option`. -/
def lookupAnn (ann : List (String × String)) (key : String) : Option String :=
  (ann.find? (fun p => p.1 = key)).map (fun p => p.2)

/-- The read-only object store: `Get` for Endpoints and Service objects and
`List` for pods by label selector; `none` models a failed call. -/
structure ObjectStore where
  getEndpoints : String → String → Option Endpoints
  getService : String → String → Option Service
  listPods : List (String × String) → Option (List Pod)

/-- Errors surfaced by the model builders of one reconciliation pass. -/
inductive BuildError where
  | getEndpointsFailed (ns name : String) : BuildError
  | noEndpoints (ns name : String) : BuildError
  | noDirectService : BuildError
  | getServiceFailed (ns name : String) : BuildError
  | podListFailed : BuildError
  | portNameNotFound (portName svcName : String) : BuildError
  deriving DecidableEq, Repr

/-- Decidable equality for `Except` results, used to evaluate the builders
on concrete inputs. -/
def decEqExcept {e a : Type} [DecidableEq e] [DecidableEq a] :
    DecidableEq (Except e a) := fun x y =>
  match x, y with
  | .error e₁, .error e₂ =>
    if h : e₁ = e₂ then .isTrue (by rw [h]) else .isFalse (by intro hc; cases hc; exact h rfl)
  | .error _, .ok _ => .isFalse (by intro hc; cases hc)
  | .ok _, .error _ => .isFalse (by intro hc; cases hc)
  | .ok a₁, .ok a₂ =>
    if h : a₁ = a₂ then .isTrue (by rw [h]) else .isFalse (by intro hc; cases hc; exact h rfl)

instance {e a : Type} [DecidableEq e] [DecidableEq a] : DecidableEq (Except e a) :=
  decEqExcept

/-- `checkTLSHost`: whether `host` is listed on any TLS binding. -/
def checkTLSHost (host : String) (tls : List IngressTLS) : Bool :=
  tls.any (fun t => t.hosts.any (fun tlsHost => host = tlsHost))

/-- `getBackendServiceNamespace`: legacy per-backend namespace override when
the `external-backend-service` annotation is present, else the ingress's own
namespace. -/
def getBackendServiceNamespace (ingress : Ingress) (backendName : String) : String :=
  match lookupAnn ingress.annotations "external-backend-service" with
  | some _ =>
    match lookupAnn ingress.annotations ("service-" ++ backendName ++ "-namespace") with
    | some backendNamespace => backendNamespace
    | none => ingress.ns
  | none => ingress.ns

/-- `createLoxiLoadBalancerService`: path-routed rule service; port 80 for
plaintext, 443 when the security flag is set. -/
def createLoxiLoadBalancerService (ns name externalIP : String) (security : Int)
    (host : String) : LoadBalancerService :=
  { externalIP := externalIP
    protocol := "tcp"
    mode := 4
    name := ns ++ "_" ++ name
    host := host
    security := security
    port := if security = 0 then 80 else 443
    sel := 0 }

/-- `loxiapi.LbSel*` selection-policy values keyed by the `loxilb.io/epselect`
annotation strings; unknown strings fall back to round-robin. -/
def selectPolicy (epSelect : String) : Nat :=
  if epSelect = "rr" then 0
  else if epSelect = "hash" then 1
  else if epSelect = "priority" then 2
  else if epSelect = "persist" then 3
  else if epSelect = "lc" then 4
  else if epSelect = "n2" then 5
  else 0

/-- `createDirectLoxiLoadBalancerService`: direct-service rule service. -/
def createDirectLoxiLoadBalancerService (ns name externalIP protocol host epSelect : String)
    (port : Int) : LoadBalancerService :=
  { externalIP := externalIP
    protocol := goToLower protocol
    mode := 4
    name := ns ++ "_" ++ name
    host := host
    security := 0
    port := uint16OfInt port
    sel := selectPolicy epSelect }

/-- The endpoint list built by `createLoxiLoadBalancerEndpointsWithTargetPort`
from the subsets: every ready address of every subset, each paired with the
declared target port (the subset's own port records are never consulted). -/
def endpointsFromSubsets (subsets : List EndpointSubset) (targetPort : Int) :
    List LoadBalancerEndpoint :=
  subsets.foldr
    (fun subset acc =>
      subset.addresses.map
        (fun addr => { endpointIP := addr.ip, targetPort := uint16OfInt targetPort, weight := 1 }) ++ acc)
    []

/-- `createLoxiLoadBalancerEndpointsWithTargetPort`: fetch the Endpoints
object and pair every ready address with the declared target port; an empty
result is a hard error. -/
def createLoxiLoadBalancerEndpointsWithTargetPort (store : ObjectStore)
    (ns name : String) (targetPort : Int) :
    Except BuildError (List LoadBalancerEndpoint) :=
  match store.getEndpoints ns name with
  | none => .error (.getEndpointsFailed ns name)
  | some ep =>
    let loxilbEpList := endpointsFromSubsets ep.subsets targetPort
    if loxilbEpList.length ≤ 0 then .error (.noEndpoints ns name)
    else .ok loxilbEpList

/-- Body of the `path` loop of `createLoxiModelList`: builds the models of the
paths of one rule (with host `host`), threading the early-return on an
endpoint-resolution error. -/
def createLoxiModelListPaths (store : ObjectStore) (loxiHost : String) (ingress : Ingress)
    (host : String) : List HTTPIngressPath → Except BuildError (List LoadBalancerModel)
  | [] => .ok []
  | path :: rest =>
    match path.backend with
    | none => createLoxiModelListPaths store loxiHost ingress host rest
    | some svc =>
      let name := svc.name
      let ns := getBackendServiceNamespace ingress name
      let port := svc.portNumber
      let security : Int := if checkTLSHost host ingress.tls then 1 else 0
      let lbName := if security = 1 then ingress.name ++ "_https" else ingress.name
      let loxisvc := createLoxiLoadBalancerService ingress.ns lbName loxiHost security host
      match createLoxiLoadBalancerEndpointsWithTargetPort store ns name port with
      | .error e => .error e
      | .ok loxiep =>
        match createLoxiModelListPaths store loxiHost ingress host rest with
        | .error e => .error e
        | .ok ms => .ok ({ service := loxisvc, endpoints := loxiep } :: ms)

/-- Body of the `rule` loop of `createLoxiModelList`: a rule whose HTTP
section is nil is skipped. -/
def createLoxiModelListRules (store : ObjectStore) (loxiHost : String) (ingress : Ingress) :
    List IngressRule → Except BuildError (List LoadBalancerModel)
  | [] => .ok []
  | rule :: rest =>
    match rule.http with
    | none => createLoxiModelListRules store loxiHost ingress rest
    | some paths =>
      match createLoxiModelListPaths store loxiHost ingress rule.host paths with
      | .error e => .error e
      | .ok ms =>
        match createLoxiModelListRules store loxiHost ingress rest with
        | .error e => .error e
        | .ok ms₂ => .ok (ms ++ ms₂)

/-- `createLoxiModelList`: the path-routed model builder. -/
def createLoxiModelList (store : ObjectStore) (loxiHost : String) (ingress : Ingress) :
    Except BuildError (List LoadBalancerModel) :=
  createLoxiModelListRules store loxiHost ingress ingress.rules

/-- First container port of any selected pod whose name matches
(`pod`/`container`/`port` triple-loop of `GetServicePortIntValue`). -/
def findContainerPortByName (pods : List Pod) (portName : String) : Option Int :=
  pods.findSome? (fun pod =>
    pod.containers.findSome? (fun c =>
      c.ports.findSome? (fun p =>
        if p.name = portName then some p.containerPort else none)))

/-- `GetServicePortIntValue`: a non-zero numeric target port is used directly;
otherwise the named port is resolved against the container ports of the pods
selected by the service's label selector. -/
def GetServicePortIntValue (store : ObjectStore) (svc : Service) (port : ServicePort) :
    Except BuildError Int :=
  if port.targetPort.intValue ≠ 0 then .ok port.targetPort.intValue
  else
    match store.listPods svc.selector with
    | none => .error .podListFailed
    | some pods =>
      match findContainerPortByName pods port.targetPort.toStr with
      | some containerPort => .ok containerPort
      | none => .error (.portNameNotFound port.targetPort.toStr svc.name)

/-- Body of the `port` loop of `createDirectLoxiModelList`. -/
def createDirectLoxiModelListPorts (store : ObjectStore) (svc : Service)
    (svcNs svcName lbName selStr : String) :
    List ServicePort → Except BuildError (List LoadBalancerModel)
  | [] => .ok []
  | port :: rest =>
    let protocol := port.protocol
    match GetServicePortIntValue store svc port with
    | .error e => .error e
    | .ok targetPortNum =>
      let loxisvc := createDirectLoxiLoadBalancerService svcNs lbName "0.0.0.0" protocol "" selStr port.port
      match createLoxiLoadBalancerEndpointsWithTargetPort store svcNs svcName targetPortNum with
      | .error e => .error e
      | .ok loxiep =>
        match createDirectLoxiModelListPorts store svc svcNs svcName lbName selStr rest with
        | .error e => .error e
        | .ok ms => .ok ({ service := loxisvc, endpoints := loxiep } :: ms)

/-- The `svcNs` local of `createDirectLoxiModelList`: annotated namespace or
the ingress's own. -/
def directSvcNs (ingress : Ingress) : String :=
  match lookupAnn ingress.annotations "loxilb.io/direct-loadbalance-namespace" with
  | some ns => ns
  | none => ingress.ns

/-- The `selStr` local of `createDirectLoxiModelList`: annotated selection
policy or round-robin. -/
def directSelStr (ingress : Ingress) : String :=
  match lookupAnn ingress.annotations "loxilb.io/epselect" with
  | some s => s
  | none => "rr"

/-- `createDirectLoxiModelList`: the direct-service model builder. -/
def createDirectLoxiModelList (store : ObjectStore) (ingress : Ingress) :
    Except BuildError (List LoadBalancerModel) :=
  match lookupAnn ingress.annotations "loxilb.io/direct-loadbalance-service" with
  | none => .error .noDirectService
  | some svcName =>
    match store.getService (directSvcNs ingress) svcName with
    | none => .error (.getServiceFailed (directSvcNs ingress) svcName)
    | some svc =>
      createDirectLoxiModelListPorts store svc (directSvcNs ingress) svcName
        ingress.name (directSelStr ingress) svc.ports

/-- One iteration of the snapshot scan of `Reconcile`: `exist` /
`existHTTPS` accumulation over `currLBList.Item`. -/
def computeExist (snapshot : List LoadBalancerModel) (ruleName ruleNameHTTPS : String) :
    Bool × Bool :=
  snapshot.foldl
    (fun acc lbItem =>
      if lbItem.service.name = ruleName then (true, acc.2)
      else if lbItem.service.name = ruleNameHTTPS then (acc.1, true)
      else acc)
    (false, false)

/-- Endpoint comparison used by the differ of `Reconcile`: same IP and same
target port (weight ignored). -/
def endpointMatch (mep ep : LoadBalancerEndpoint) : Bool :=
  mep.endpointIP = ep.endpointIP && mep.targetPort = ep.targetPort

/-- One snapshot item judged equal to a desired model by the differ: same
rule name, same endpoint count, and every desired endpoint present among the
item's endpoints. -/
def modelMatchesItem (model lbItem : LoadBalancerModel) : Bool :=
  lbItem.service.name = model.service.name
    && lbItem.endpoints.length = model.endpoints.length
    && model.endpoints.all (fun mep => lbItem.endpoints.any (fun ep => endpointMatch mep ep))

/-- The `nextModel` loop of `Reconcile`: keep exactly the desired models
that no snapshot item matches. -/
def diffModels (snapshot models : List LoadBalancerModel) : List LoadBalancerModel :=
  models.filter (fun model => ¬ snapshot.any (fun lbItem => modelMatchesItem model lbItem))

/-- The `Create` loop of `Reconcile` over `applyModels`.  `createResult m`
is the error returned by the remote store's `Create` for model `m` (`none` =
success).  Returns the models actually passed to `Create`, in order, and the
error surfaced to the caller, if any: an "lbrule-exists error" response is
swallowed, any other failure aborts the loop. -/
def applyLoop (createResult : LoadBalancerModel → Option String) :
    List LoadBalancerModel → List LoadBalancerModel × Option String
  | [] => ([], none)
  | model :: rest =>
    match createResult model with
    | none =>
      let next := applyLoop createResult rest
      (model :: next.1, next.2)
    | some msg =>
      if msg = "lbrule-exists error" then
        let next := applyLoop createResult rest
        (model :: next.1, next.2)
      else ([model], some msg)

/-- Pass-level errors of `Reconcile`. -/
inductive ReconcileError where
  | buildFailed (e : BuildError) : ReconcileError
  | createFailed (msg : String) : ReconcileError
  deriving DecidableEq, Repr

/-- The observable outcome of one reconciliation pass: the `DeleteByName`
calls issued (in order), the models passed to `Create` (in order), and the
error returned, if any. -/
structure ReconcileTrace where
  deletes : List String
  creates : List LoadBalancerModel
  err : Option ReconcileError
  deriving DecidableEq, Repr

/-- The pair of `DeleteByName` calls of `Reconcile`, each guarded by the
corresponding snapshot-presence flag. -/
def guardedDeletes (ex : Bool × Bool) (ruleName ruleNameHTTPS : String) : List String :=
  (if ex.1 then [ruleName] else []) ++ (if ex.2 then [ruleNameHTTPS] else [])

/-- The `models, err :=` selection of `Reconcile`: direct-service builder
when the direct annotation is present, path-routed builder otherwise. -/
def buildModels (store : ObjectStore) (loxiHost : String) (ingress : Ingress) :
    Except BuildError (List LoadBalancerModel) :=
  if (lookupAnn ingress.annotations "loxilb.io/direct-loadbalance-service").isSome
  then createDirectLoxiModelList store ingress
  else createLoxiModelList store loxiHost ingress

/-- The diff-and-apply tail of `Reconcile`: when the differ leaves nothing to
apply the pass only re-polls; otherwise the apply loop runs. -/
def reconcileApply (snapshot models : List LoadBalancerModel)
    (createResult : LoadBalancerModel → Option String) : ReconcileTrace :=
  if (diffModels snapshot models).length ≤ 0 then
    { deletes := [], creates := [], err := none }
  else
    { deletes := [], creates := (applyLoop createResult (diffModels snapshot models)).1
      err := (applyLoop createResult (diffModels snapshot models)).2.map .createFailed }

/-- The present-ingress part of `Reconcile`: build, diff, apply; a build
error triggers the snapshot-guarded cleanup deletions and is surfaced. -/
def reconcilePresent (store : ObjectStore) (loxiHost : String)
    (snapshot : List LoadBalancerModel) (ex : Bool × Bool)
    (ruleName ruleNameHTTPS : String) (ingress : Ingress)
    (createResult : LoadBalancerModel → Option String) : ReconcileTrace :=
  match buildModels store loxiHost ingress with
  | .error e =>
    { deletes := guardedDeletes ex ruleName ruleNameHTTPS
      creates := []
      err := some (.buildFailed e) }
  | .ok models => reconcileApply snapshot models createResult

/-- `Reconcile` (current version): one reconciliation pass for request
`(reqNs, reqName)` against a freshly fetched `snapshot`.
`ingressOpt = none` models the not-found case (the RouteSource was deleted);
`createResult` models the remote store's per-model `Create` responses. -/
def Reconcile (store : ObjectStore) (loxiHost : String)
    (snapshot : List LoadBalancerModel) (reqNs reqName : String)
    (ingressOpt : Option Ingress)
    (createResult : LoadBalancerModel → Option String) : ReconcileTrace :=
  let ruleName := reqNs ++ "_" ++ reqName
  let ruleNameHTTPS := reqNs ++ "_" ++ reqName ++ "_https"
  let ex := computeExist snapshot ruleName ruleNameHTTPS
  match ingressOpt with
  | none =>
    { deletes := guardedDeletes ex ruleName ruleNameHTTPS
      creates := []
      err := none }
  | some ingress =>
    reconcilePresent store loxiHost snapshot ex ruleName ruleNameHTTPS ingress createResult

/-- `checkIngressLoadBalancerIngressExist`: a status-source entry already
appears in the ingress status when some recorded entry has a non-empty IP
equal to the entry's IP, or a non-empty hostname equal to its hostname. -/
def checkIngressLoadBalancerIngressExist (status : List LBIngressEntry)
    (serviceIngress : LBIngressEntry) : Bool :=
  status.any (fun i =>
    (i.ip ≠ "" && i.ip = serviceIngress.ip)
      || (i.hostname ≠ "" && i.hostname = serviceIngress.hostname))

/-- The per-port copy made by `updateIngressStatus` (netv1 from corev1). -/
def copyPortStatus (p : PortStatus) : PortStatus :=
  { port := p.port, protocol := p.protocol, error := p.error }

/-- The per-entry copy made by `updateIngressStatus`. -/
def copyLBIngressEntry (e : LBIngressEntry) : LBIngressEntry :=
  { ip := e.ip, hostname := e.hostname, ports := e.ports.map copyPortStatus }

/-- The status-append loop of `updateIngressStatus`: each status-source entry
is checked against the status accumulated so far; duplicates are skipped,
new entries are appended. -/
def appendNewEntries (status : List LBIngressEntry) :
    List LBIngressEntry → List LBIngressEntry
  | [] => status
  | ing :: rest =>
    if checkIngressLoadBalancerIngressExist status ing then appendNewEntries status rest
    else appendNewEntries (status ++ [copyLBIngressEntry ing]) rest

/-- Resolution of the status-source service key from the annotations
(gateway pair, or plain service name with optional namespace); `none` models
the silent `return nil` when no `loadbalancer-service` annotation is set. -/
def resolveStatusSourceKey (ingress : Ingress) : Option (String × String) :=
  match lookupAnn ingress.annotations "gateway-api-controller" with
  | some gwProvider =>
    if gwProvider = "loxilb.io/loxilb" then
      some
        ((match lookupAnn ingress.annotations "parent-gateway-namespace" with
          | some ns => ns
          | none => ""),
         (match lookupAnn ingress.annotations "parent-gateway" with
          | some gw => gw
          | none => "") ++ "-ingress-service")
    else some ("", "")
  | none =>
    let lbNs :=
      match lookupAnn ingress.annotations "loadbalancer-service-namespace" with
      | some ns => ns
      | none => "default"
    match lookupAnn ingress.annotations "loadbalancer-service" with
    | some lbName => some (lbNs, lbName)
    | none => none

/-- Observable outcome of `updateIngressStatus`. -/
inductive StatusOutcome where
  | noWrite : StatusOutcome
  | getFailed : StatusOutcome
  | write (newStatus : List LBIngressEntry) : StatusOutcome
  deriving DecidableEq, Repr

/-- `updateIngressStatus`: resolve the status-source service, append every
non-duplicate of its load-balancer status entries to the ingress status, and
issue the status write (`Status().Update`) with the resulting status.  The
write is issued whenever the service fetch succeeded. -/
def updateIngressStatus (store : ObjectStore) (ingress : Ingress) : StatusOutcome :=
  match resolveStatusSourceKey ingress with
  | none => .noWrite
  | some (lbNs, lbName) =>
    match store.getService lbNs lbName with
    | none => .getFailed
    | some svc => .write (appendNewEntries ingress.status svc.status)

/-- Modelled from the spec (§3): the spec's structural equality for diffing —
same identity key, same endpoint count, and every endpoint address+port pair
present in BOTH sets.  Kept separate from `modelMatchesItem` (the code's
check) so the two can be compared. -/
def specDiffEqual (model lbItem : LoadBalancerModel) : Bool :=
  lbItem.service.name = model.service.name
    && lbItem.endpoints.length = model.endpoints.length
    && model.endpoints.all (fun mep => lbItem.endpoints.any (fun ep => endpointMatch mep ep))
    && lbItem.endpoints.all (fun ep => model.endpoints.any (fun mep => endpointMatch mep ep))

/-- All ready addresses of the subsets, in traversal order (the data that
`endpointsFromSubsets` actually depends on). -/
def addressesOf (subsets : List EndpointSubset) : List EndpointAddress :=
  subsets.foldr (fun subset acc => subset.addresses ++ acc) []

/- Concrete fixtures used by counterexamples and witnesses. -/

/-- An object store on which every lookup fails. -/
def emptyStore : ObjectStore :=
  { getEndpoints := fun _ _ => none
    getService := fun _ _ => none
    listPods := fun _ => none }

/-- A remote rule whose name is the plain identity key `ns_app`. -/
def plainRuleC1 : LoadBalancerModel :=
  { service := { externalIP := "192.168.1.1", protocol := "tcp", mode := 4,
                 name := "ns_app", host := "a.com", security := 0, port := 80, sel := 0 }
    endpoints := [{ endpointIP := "10.0.0.5", targetPort := 8080, weight := 1 }] }

/-- Endpoint `(10.0.0.1, 80)`. -/
def epA : LoadBalancerEndpoint := { endpointIP := "10.0.0.1", targetPort := 80, weight := 1 }

/-- Endpoint `(10.0.0.2, 80)`. -/
def epB : LoadBalancerEndpoint := { endpointIP := "10.0.0.2", targetPort := 80, weight := 1 }

/-- A rule service with identity key `k`. -/
def svcK : LoadBalancerService :=
  { externalIP := "", protocol := "tcp", mode := 4, name := "k", host := "",
    security := 0, port := 80, sel := 0 }

/-- Desired model with duplicated endpoint `epA`. -/
def modelC2 : LoadBalancerModel := { service := svcK, endpoints := [epA, epA] }

/-- Snapshot item with endpoints `epA, epB`. -/
def itemC2 : LoadBalancerModel := { service := svcK, endpoints := [epA, epB] }

/-- Desired model with endpoints `epA, epB` in this order. -/
def modelC2w : LoadBalancerModel := { service := svcK, endpoints := [epA, epB] }

/-- Snapshot item with the same endpoints in swapped order. -/
def itemC2w : LoadBalancerModel := { service := svcK, endpoints := [epB, epA] }

/-- Direct-service scenario ingress `ns/app` targeting `svc2` in `ns2`. -/
def ingC5 : Ingress :=
  { ns := "ns", name := "app"
    annotations := [("loxilb.io/direct-loadbalance-service", "svc2"),
                    ("loxilb.io/direct-loadbalance-namespace", "ns2")]
    rules := [], tls := [], status := [] }

/-- Target service `svc2` exposing 9090 with named target port `web`. -/
def svcC5 : Service :=
  { name := "svc2", selector := [("app", "demo")]
    ports := [{ protocol := "TCP", port := 9090, targetPort := .str "web" }]
    status := [] }

/-- One selected pod with container port `web` = 9090. -/
def podC5 : Pod :=
  { containers := [{ ports := [{ name := "web", containerPort := 9090 }] }] }

/-- Endpoints of `ns2/svc2`: one ready address. -/
def epC5 : Endpoints :=
  { subsets := [{ addresses := [{ ip := "10.0.0.5" }],
                  ports := [{ name := "web", port := 9090 }] }] }

/-- Object store for the direct-service scenario. -/
def storeC5 : ObjectStore :=
  { getEndpoints := fun ns name => if ns = "ns2" ∧ name = "svc2" then some epC5 else none
    getService := fun ns name => if ns = "ns2" ∧ name = "svc2" then some svcC5 else none
    listPods := fun sel => if sel = [("app", "demo")] then some [podC5] else none }

/-- Endpoints whose subset port records list only 8080. -/
def epC6 : Endpoints :=
  { subsets := [{ addresses := [{ ip := "10.0.0.5" }],
                  ports := [{ name := "http", port := 8080 }] }] }

/-- Path-routed ingress whose backend declares port 9999, which matches no
subset port record of `epC6`. -/
def ingC6 : Ingress :=
  { ns := "ns", name := "app", annotations := []
    rules := [{ host := "a.com",
                http := some [{ backend := some { name := "svc", portNumber := 9999 } }] }]
    tls := [], status := [] }

/-- Object store for the mismatched-port scenario. -/
def storeC6 : ObjectStore :=
  { getEndpoints := fun ns name => if ns = "ns" ∧ name = "svc" then some epC6 else none
    getService := fun _ _ => none
    listPods := fun _ => none }

/-- Path-routed ingress with a TLS binding for its only host. -/
def ingC8 : Ingress :=
  { ns := "ns", name := "app", annotations := []
    rules := [{ host := "a.com",
                http := some [{ backend := some { name := "svc", portNumber := 8080 } }] }]
    tls := [{ hosts := ["a.com"] }], status := [] }

/-- Endpoints of `ns/svc` for the TLS scenario. -/
def epC8 : Endpoints :=
  { subsets := [{ addresses := [{ ip := "10.0.0.5" }],
                  ports := [{ name := "", port := 8080 }] }] }

/-- Object store for the TLS scenario. -/
def storeC8 : ObjectStore :=
  { getEndpoints := fun ns name => if ns = "ns" ∧ name = "svc" then some epC8 else none
    getService := fun _ _ => none
    listPods := fun _ => none }

/-- A status entry with IP `1.2.3.4`. -/
def entryDupC9 : LBIngressEntry := { ip := "1.2.3.4", hostname := "", ports := [] }

/-- A status entry carrying only a hostname. -/
def entryHostC9 : LBIngressEntry := { ip := "", hostname := "lb.example.com", ports := [] }

/-- An ingress whose recorded status already holds `entryDupC9`. -/
def ingC9 : Ingress :=
  { ns := "ns", name := "app"
    annotations := [("loadbalancer-service", "lbsvc")]
    rules := [], tls := [], status := [entryDupC9] }

/-- Status-source service reporting exactly the already-recorded entry. -/
def svcC9 : Service :=
  { name := "lbsvc", selector := [], ports := [], status := [entryDupC9] }

/-- Object store resolving `default/lbsvc` to `svcC9`. -/
def storeC9 : ObjectStore :=
  { getEndpoints := fun _ _ => none
    getService := fun ns name => if ns = "default" ∧ name = "lbsvc" then some svcC9 else none
    listPods := fun _ => none }

/-- Ingress for the witness of the amended status claim: records both a
matching IP entry and a matching hostname entry. -/
def ingC9w : Ingress :=
  { ns := "ns", name := "app"
    annotations := [("loadbalancer-service", "lbsvc")]
    rules := [], tls := [], status := [entryDupC9, { ip := "5.6.7.8", hostname := "lb.example.com", ports := [] }] }

/-- Status-source service for the witness, reporting two duplicate entries. -/
def svcC9w : Service :=
  { name := "lbsvc", selector := [], ports := [], status := [entryDupC9, entryHostC9] }

/-- Object store resolving `default/lbsvc` to `svcC9w`. -/
def storeC9w : ObjectStore :=
  { getEndpoints := fun _ _ => none
    getService := fun ns name => if ns = "default" ∧ name = "lbsvc" then some svcC9w else none
    listPods := fun _ => none }

/-- The single model the direct-service scenario produces. -/
def mC5 : LoadBalancerModel :=
  { service := { externalIP := "0.0.0.0", protocol := "tcp", mode := 4, name := "ns2_app",
                 host := "", security := 0, port := 9090, sel := 0 }
    endpoints := [{ endpointIP := "10.0.0.5", targetPort := 9090, weight := 1 }] }

/-- The single model the mismatched-port scenario produces. -/
def mC6 : LoadBalancerModel :=
  { service := { externalIP := "192.168.1.1", protocol := "tcp", mode := 4, name := "ns_app",
                 host := "a.com", security := 0, port := 80, sel := 0 }
    endpoints := [{ endpointIP := "10.0.0.5", targetPort := 9999, weight := 1 }] }

/-- The single model the TLS scenario produces. -/
def mC8 : LoadBalancerModel :=
  { service := { externalIP := "192.168.1.1", protocol := "tcp", mode := 4,
                 name := "ns_app_https", host := "a.com", security := 1, port := 443, sel := 0 }
    endpoints := [{ endpointIP := "10.0.0.5", targetPort := 8080, weight := 1 }] }

/-- An Endpoints object with a subset but no ready addresses. -/
def epC3 : Endpoints := { subsets := [{ addresses := [], ports := [] }] }

/-- Object store whose only Endpoints object has no ready addresses. -/
def storeC3 : ObjectStore :=
  { getEndpoints := fun ns name => if ns = "ns" ∧ name = "svc" then some epC3 else none
    getService := fun _ _ => none
    listPods := fun _ => none }

/-- A remote store whose `Create` always fails with a hard error. -/
def crBoom : LoadBalancerModel → Option String := fun _ => some "boom"

/-- A remote store whose `Create` always reports the already-exists
condition. -/
def crExists : LoadBalancerModel → Option String := fun _ => some "lbrule-exists error"

/- Helper lemmas. -/

/-- A string never equals itself with `"_https"` appended. -/
theorem ne_append_https (s : String) : s ≠ s ++ "_https" := by
  intro h
  have hlen := congrArg String.length h
  rw [String.length_append] at hlen
  have h6 : ("_https" : String).length = 6 := rfl
  rw [h6] at hlen
  omega

/-- `computeExist` computes exactly the two snapshot-membership flags, as
long as the two rule names differ. -/
theorem computeExist_eq_any (snapshot : List LoadBalancerModel) (n h : String)
    (hne : n ≠ h) :
    computeExist snapshot n h =
      (snapshot.any (fun i => i.service.name = n),
       snapshot.any (fun i => i.service.name = h)) := by
  unfold computeExist
  suffices hgen : ∀ init : Bool × Bool,
      snapshot.foldl
        (fun acc lbItem =>
          if lbItem.service.name = n then (true, acc.2)
          else if lbItem.service.name = h then (acc.1, true)
          else acc) init =
      (init.1 || snapshot.any (fun i => i.service.name = n),
       init.2 || snapshot.any (fun i => i.service.name = h)) by
    simpa using hgen (false, false)
  induction snapshot with
  | nil => intro init; simp
  | cons item rest ih =>
    intro init
    by_cases hn : item.service.name = n
    · have hh : ¬ item.service.name = h := by rw [hn]; exact hne
      simp [hn, hh, ih, hne, Ne.symm hne]
    · by_cases hh : item.service.name = h
      · simp [hn, hh, ih, hne, Ne.symm hne]
      · simp [hn, hh, ih]

/-- A successful endpoint resolution never returns an empty list. -/
theorem endpointsWithTargetPort_ok_ne_nil (store : ObjectStore) (ns name : String)
    (targetPort : Int) (eps : List LoadBalancerEndpoint)
    (hok : createLoxiLoadBalancerEndpointsWithTargetPort store ns name targetPort = .ok eps) :
    eps ≠ [] := by
  unfold createLoxiLoadBalancerEndpointsWithTargetPort at hok
  cases hget : store.getEndpoints ns name with
  | none => rw [hget] at hok; exact absurd hok (by simp)
  | some ep =>
    rw [hget] at hok
    simp only at hok
    split at hok
    · exact absurd hok (by simp)
    · rename_i hlen
      cases hok
      intro hnil
      exact hlen (by simp [hnil])

/-- `endpointsFromSubsets` depends only on the ready addresses: it is the
address list mapped to endpoints at the declared target port; the subset
port records never enter. -/
theorem endpointsFromSubsets_eq_map (subsets : List EndpointSubset) (targetPort : Int) :
    endpointsFromSubsets subsets targetPort =
      (addressesOf subsets).map
        (fun addr => { endpointIP := addr.ip, targetPort := uint16OfInt targetPort, weight := 1 }) := by
  induction subsets with
  | nil => rfl
  | cons subset rest ih =>
    simp [endpointsFromSubsets, addressesOf] at ih ⊢
    rw [ih]

/-- Every model passed to `Create` by the apply loop is one of its inputs. -/
theorem applyLoop_subset (createResult : LoadBalancerModel → Option String)
    (models : List LoadBalancerModel) (m : LoadBalancerModel)
    (hmem : m ∈ (applyLoop createResult models).1) : m ∈ models := by
  induction models with
  | nil => simp [applyLoop] at hmem
  | cons model rest ih =>
    unfold applyLoop at hmem
    cases hcr : createResult model with
    | none =>
      rw [hcr] at hmem
      simp only [List.mem_cons] at hmem ⊢
      rcases hmem with h | h
      · exact Or.inl h
      · exact Or.inr (ih h)
    | some msg =>
      rw [hcr] at hmem
      simp only at hmem
      split at hmem
      · simp only [List.mem_cons] at hmem ⊢
        rcases hmem with h | h
        · exact Or.inl h
        · exact Or.inr (ih h)
      · simp only [List.mem_cons, List.not_mem_nil, or_false] at hmem
        exact List.mem_cons.mpr (Or.inl hmem)

/-- Every model kept by the differ is one of the desired models. -/
theorem diffModels_subset (snapshot models : List LoadBalancerModel)
    (m : LoadBalancerModel) (hmem : m ∈ diffModels snapshot models) : m ∈ models :=
  List.mem_of_mem_filter hmem

/-- Shape of every model produced by the path loop: it is built by
`createLoxiLoadBalancerService` from the ingress's namespace, a security
flag in `{0, 1}`, the matching plain/`_https` rule name, and a non-empty
endpoint list. -/
theorem createLoxiModelListPaths_shape (store : ObjectStore) (loxiHost : String)
    (ingress : Ingress) (host : String) (paths : List HTTPIngressPath)
    (ms : List LoadBalancerModel)
    (hok : createLoxiModelListPaths store loxiHost ingress host paths = .ok ms) :
    ∀ m ∈ ms, ∃ (security : Int) (lbName : String) (eps : List LoadBalancerEndpoint),
      m = { service := createLoxiLoadBalancerService ingress.ns lbName loxiHost security host,
            endpoints := eps } ∧
      ((security = 0 ∧ lbName = ingress.name) ∨
        (security = 1 ∧ lbName = ingress.name ++ "_https")) ∧
      eps ≠ [] := by
  induction paths generalizing ms with
  | nil =>
    cases hok
    simp
  | cons path rest ih =>
    simp only [createLoxiModelListPaths] at hok
    split at hok
    · exact ih ms hok
    · rename_i svc _
      split at hok
      · cases hok
      · rename_i loxiep hep
        split at hok
        · cases hok
        · rename_i ms' hrest
          cases hok
          intro m hm
          rcases List.mem_cons.mp hm with hm | hm
          · subst hm
            by_cases htls : checkTLSHost host ingress.tls
            · refine ⟨1, ingress.name ++ "_https", loxiep, by simp [htls], Or.inr ⟨rfl, rfl⟩, ?_⟩
              exact endpointsWithTargetPort_ok_ne_nil _ _ _ _ _ hep
            · refine ⟨0, ingress.name, loxiep, by simp [htls], Or.inl ⟨rfl, rfl⟩, ?_⟩
              exact endpointsWithTargetPort_ok_ne_nil _ _ _ _ _ hep
          · exact ih ms' hrest m hm

/-- Shape of every model produced by the path-routed rule loop. -/
theorem createLoxiModelListRules_shape (store : ObjectStore) (loxiHost : String)
    (ingress : Ingress) (rules : List IngressRule) (ms : List LoadBalancerModel)
    (hok : createLoxiModelListRules store loxiHost ingress rules = .ok ms) :
    ∀ m ∈ ms, ∃ (host : String) (security : Int) (lbName : String)
        (eps : List LoadBalancerEndpoint),
      m = { service := createLoxiLoadBalancerService ingress.ns lbName loxiHost security host,
            endpoints := eps } ∧
      ((security = 0 ∧ lbName = ingress.name) ∨
        (security = 1 ∧ lbName = ingress.name ++ "_https")) ∧
      eps ≠ [] := by
  induction rules generalizing ms with
  | nil =>
    cases hok
    simp
  | cons rule rest ih =>
    simp only [createLoxiModelListRules] at hok
    split at hok
    · exact ih ms hok
    · rename_i paths _
      split at hok
      · cases hok
      · rename_i ms₁ hpaths
        split at hok
        · cases hok
        · rename_i ms₂ hrest
          cases hok
          intro m hm
          rcases List.mem_append.mp hm with hm | hm
          · obtain ⟨sec, lbName, eps, hshape, hcase, hne⟩ :=
              createLoxiModelListPaths_shape store loxiHost ingress rule.host paths ms₁ hpaths m hm
            exact ⟨rule.host, sec, lbName, eps, hshape, hcase, hne⟩
          · exact ih ms₂ hrest m hm

/-- Every model produced by the path-routed builder has the shape above. -/
theorem createLoxiModelList_shape (store : ObjectStore) (loxiHost : String)
    (ingress : Ingress) (ms : List LoadBalancerModel)
    (hok : createLoxiModelList store loxiHost ingress = .ok ms) :
    ∀ m ∈ ms, ∃ (host : String) (security : Int) (lbName : String)
        (eps : List LoadBalancerEndpoint),
      m = { service := createLoxiLoadBalancerService ingress.ns lbName loxiHost security host,
            endpoints := eps } ∧
      ((security = 0 ∧ lbName = ingress.name) ∨
        (security = 1 ∧ lbName = ingress.name ++ "_https")) ∧
      eps ≠ [] :=
  createLoxiModelListRules_shape store loxiHost ingress ingress.rules ms hok

/-- Every model produced by the direct-service port loop has a non-empty
endpoint list. -/
theorem createDirectLoxiModelListPorts_ne_nil (store : ObjectStore) (svc : Service)
    (svcNs svcName lbName selStr : String) (ports : List ServicePort)
    (ms : List LoadBalancerModel)
    (hok : createDirectLoxiModelListPorts store svc svcNs svcName lbName selStr ports = .ok ms) :
    ∀ m ∈ ms, m.endpoints ≠ [] := by
  induction ports generalizing ms with
  | nil =>
    cases hok
    simp
  | cons port rest ih =>
    simp only [createDirectLoxiModelListPorts] at hok
    split at hok
    · cases hok
    · rename_i targetPortNum _
      split at hok
      · cases hok
      · rename_i loxiep hep
        split at hok
        · cases hok
        · rename_i ms' hrest
          cases hok
          intro m hm
          rcases List.mem_cons.mp hm with hm | hm
          · subst hm
            exact endpointsWithTargetPort_ok_ne_nil _ _ _ _ _ hep
          · exact ih ms' hrest m hm

/-- Every model produced by the direct-service builder has a non-empty
endpoint list. -/
theorem createDirectLoxiModelList_ne_nil (store : ObjectStore) (ingress : Ingress)
    (ms : List LoadBalancerModel)
    (hok : createDirectLoxiModelList store ingress = .ok ms) :
    ∀ m ∈ ms, m.endpoints ≠ [] := by
  unfold createDirectLoxiModelList at hok
  split at hok
  · cases hok
  · split at hok
    · cases hok
    · exact createDirectLoxiModelListPorts_ne_nil _ _ _ _ _ _ _ ms hok

/-- Every model passed to `Create` by the present-ingress part of a pass has
a non-empty endpoint list. -/
theorem reconcilePresent_creates_ne_nil (store : ObjectStore) (loxiHost : String)
    (snapshot : List LoadBalancerModel) (ex : Bool × Bool)
    (ruleName ruleNameHTTPS : String) (ingress : Ingress)
    (createResult : LoadBalancerModel → Option String) (m : LoadBalancerModel)
    (hmem : m ∈ (reconcilePresent store loxiHost snapshot ex ruleName ruleNameHTTPS
        ingress createResult).creates) :
    m.endpoints ≠ [] := by
  unfold reconcilePresent at hmem
  cases hbuild : buildModels store loxiHost ingress with
  | error e =>
    rw [hbuild] at hmem
    simp at hmem
  | ok models =>
    rw [hbuild] at hmem
    dsimp only at hmem
    unfold reconcileApply at hmem
    by_cases hlen : (diffModels snapshot models).length ≤ 0
    · rw [if_pos hlen] at hmem
      simp at hmem
    · rw [if_neg hlen] at hmem
      have hm₁ : m ∈ diffModels snapshot models :=
        applyLoop_subset createResult _ m hmem
      have hm₂ : m ∈ models := diffModels_subset snapshot models m hm₁
      unfold buildModels at hbuild
      by_cases hdirect :
          (lookupAnn ingress.annotations "loxilb.io/direct-loadbalance-service").isSome
      · rw [if_pos hdirect] at hbuild
        exact createDirectLoxiModelList_ne_nil store ingress models hbuild m hm₂
      · rw [if_neg hdirect] at hbuild
        obtain ⟨host, sec, lbName, eps, hshape, _, hne⟩ :=
          createLoxiModelList_shape store loxiHost ingress models hbuild m hm₂
        rw [hshape]
        exact hne

/- Claim theorems. -/

/-- C1 (counterexample): with the RouteSource deleted and only the plain rule
`ns_app` present in the fetched snapshot, the pass issues the single deletion
`ns_app`; no deletion of `ns_app_https` is ever issued, so an `ns_app_https`
rule installed remotely but absent from the snapshot is NOT removed —
refuting the claim that both identity keys are deleted regardless of which
was present in the snapshot. -/
theorem C1_deletion_counterexample :
    (Reconcile emptyStore "192.168.1.1" [plainRuleC1] "ns" "app" none
        (fun _ => none)).deletes = ["ns_app"] ∧
    "ns_app_https" ∉ (Reconcile emptyStore "192.168.1.1" [plainRuleC1] "ns" "app" none
        (fun _ => none)).deletes := by
  constructor <;> decide

/-- C1 (amended): when the RouteSource has been deleted, the pass issues a
deletion for exactly those of the two identity keys that are present in the
fetched snapshot — plain first, then `_https` — and a key absent from the
snapshot receives no delete call; no creates are issued and no error is
returned. -/
theorem C1_deletion_amended (store : ObjectStore) (loxiHost : String)
    (snapshot : List LoadBalancerModel) (reqNs reqName : String)
    (createResult : LoadBalancerModel → Option String) :
    Reconcile store loxiHost snapshot reqNs reqName none createResult =
      { deletes :=
          (if snapshot.any (fun i => i.service.name = reqNs ++ "_" ++ reqName)
           then [reqNs ++ "_" ++ reqName] else []) ++
          (if snapshot.any (fun i => i.service.name = reqNs ++ "_" ++ reqName ++ "_https")
           then [reqNs ++ "_" ++ reqName ++ "_https"] else [])
        creates := []
        err := none } := by
  simp only [Reconcile]
  rw [computeExist_eq_any snapshot _ _ (ne_append_https (reqNs ++ "_" ++ reqName))]
  rfl

/-- C2 (counterexample): the desired model carries the duplicated endpoint
list `[epA, epA]` and the snapshot item the list `[epA, epB]`: the differ
judges them equal (so the create is skipped) even though `epB` is absent
from the desired endpoint set — refuting the claimed "if and only if"
characterisation by both-ways endpoint containment (`specDiffEqual`). -/
theorem C2_diff_counterexample :
    modelMatchesItem modelC2 itemC2 = true ∧
    diffModels [itemC2] [modelC2] = [] ∧
    specDiffEqual modelC2 itemC2 = false := by
  refine ⟨by decide, by decide, by decide⟩

/-- C2 (amended): the differ judges a desired model equal to a snapshot item
if and only if they share the identity key, have the same endpoint count,
and every DESIRED endpoint's (IP, target port) pair occurs among the item's
endpoints (one-directional containment, order-independent, weight ignored);
in particular a desired model whose endpoint list is a permutation of a
snapshot item's produces no create call. -/
theorem C2_diff_amended :
    (∀ model lbItem : LoadBalancerModel,
      modelMatchesItem model lbItem = true ↔
        (lbItem.service.name = model.service.name ∧
         lbItem.endpoints.length = model.endpoints.length ∧
         ∀ mep ∈ model.endpoints, ∃ ep ∈ lbItem.endpoints,
           mep.endpointIP = ep.endpointIP ∧ mep.targetPort = ep.targetPort)) ∧
    (∀ (model lbItem : LoadBalancerModel) (snapshot : List LoadBalancerModel),
      model.service.name = lbItem.service.name →
      model.endpoints.Perm lbItem.endpoints →
      lbItem ∈ snapshot →
      diffModels snapshot [model] = []) := by
  have hchar : ∀ model lbItem : LoadBalancerModel,
      modelMatchesItem model lbItem = true ↔
        (lbItem.service.name = model.service.name ∧
         lbItem.endpoints.length = model.endpoints.length ∧
         ∀ mep ∈ model.endpoints, ∃ ep ∈ lbItem.endpoints,
           mep.endpointIP = ep.endpointIP ∧ mep.targetPort = ep.targetPort) := by
    intro model lbItem
    simp only [modelMatchesItem, endpointMatch, Bool.and_eq_true, decide_eq_true_eq,
      List.all_eq_true, List.any_eq_true, and_assoc]
  refine ⟨hchar, ?_⟩
  intro model lbItem snapshot hname hperm hmem
  have hmatch : modelMatchesItem model lbItem = true := by
    rw [hchar]
    refine ⟨hname.symm, hperm.length_eq.symm, ?_⟩
    intro mep hmep
    exact ⟨mep, hperm.mem_iff.mp hmep, rfl, rfl⟩
  have hany : (snapshot.any fun lbItem => modelMatchesItem model lbItem) = true :=
    List.any_eq_true.mpr ⟨lbItem, hmem, hmatch⟩
  unfold diffModels
  rw [List.filter_singleton, hany]
  rfl

/-- C2 (witness): a desired model and a snapshot item with the same key `k`
and the endpoints `[epA, epB]` versus `[epB, epA]` — differing only in
order — produce no create call. -/
theorem C2_diff_amended_witness :
    diffModels [itemC2w] [modelC2w] = [] :=
  C2_diff_amended.2 modelC2w itemC2w [itemC2w] rfl (List.Perm.swap epB epA []) (by simp)

/-- C3: a backend whose Endpoints object yields no ready address makes the
endpoint resolver fail with the no-endpoints error (which aborts the pass),
and every model a pass with a live RouteSource hands to the remote store's
`Create` has a non-empty endpoint list. -/
theorem C3_no_empty_endpoints :
    (∀ (store : ObjectStore) (ns name : String) (targetPort : Int) (ep : Endpoints),
      store.getEndpoints ns name = some ep →
      endpointsFromSubsets ep.subsets targetPort = [] →
      createLoxiLoadBalancerEndpointsWithTargetPort store ns name targetPort =
        .error (.noEndpoints ns name)) ∧
    (∀ (store : ObjectStore) (loxiHost : String) (snapshot : List LoadBalancerModel)
        (reqNs reqName : String) (ingress : Ingress)
        (createResult : LoadBalancerModel → Option String) (m : LoadBalancerModel),
      m ∈ (Reconcile store loxiHost snapshot reqNs reqName (some ingress)
          createResult).creates →
      m.endpoints ≠ []) := by
  constructor
  · intro store ns name targetPort ep hget hempty
    unfold createLoxiLoadBalancerEndpointsWithTargetPort
    rw [hget]
    dsimp only
    rw [hempty]
    simp
  · intro store loxiHost snapshot reqNs reqName ingress createResult m hmem
    exact reconcilePresent_creates_ne_nil store loxiHost snapshot _ _ _ ingress
      createResult m hmem

/-- C3 (witness): the resolver errors on the address-less Endpoints object of
`ns/svc`, and the model the TLS scenario pass hands to `Create` has a
non-empty endpoint list. -/
theorem C3_no_empty_endpoints_witness :
    createLoxiLoadBalancerEndpointsWithTargetPort storeC3 "ns" "svc" 8080 =
      .error (.noEndpoints "ns" "svc") ∧
    mC8.endpoints ≠ [] :=
  ⟨C3_no_empty_endpoints.1 storeC3 "ns" "svc" 8080 epC3 rfl rfl,
   C3_no_empty_endpoints.2 storeC8 "192.168.1.1" [] "ns" "app" ingC8 (fun _ => none) mC8
     (by decide)⟩

/-- C4: every model produced by the path-routed builder carries one of the
two identity keys `{ns}_{name}` or `{ns}_{name}_https` — hosts of the same
security class share one key and non-TLS hosts never add further keys. -/
theorem C4_identity_keys (store : ObjectStore) (loxiHost : String) (ingress : Ingress)
    (models : List LoadBalancerModel)
    (hok : createLoxiModelList store loxiHost ingress = .ok models) :
    ∀ m ∈ models,
      m.service.name = ingress.ns ++ "_" ++ ingress.name ∨
      m.service.name = ingress.ns ++ "_" ++ ingress.name ++ "_https" := by
  intro m hm
  obtain ⟨host, sec, lbName, eps, hshape, hcase, -⟩ :=
    createLoxiModelList_shape store loxiHost ingress models hok m hm
  subst hshape
  rcases hcase with ⟨-, hn⟩ | ⟨-, hn⟩
  · left
    rw [hn]
    rfl
  · right
    rw [hn]
    simp [createLoxiLoadBalancerService, String.append_assoc]

/-- C4 (witness): the TLS scenario's single model carries the `_https` form
of the ingress's identity key. -/
theorem C4_identity_keys_witness :
    mC8.service.name = ingC8.ns ++ "_" ++ ingC8.name ∨
    mC8.service.name = ingC8.ns ++ "_" ++ ingC8.name ++ "_https" :=
  C4_identity_keys storeC8 "192.168.1.1" ingC8 [mC8] rfl mC8 (by simp)

/-- C5 (counterexample): in the direct-service scenario — Ingress `ns/app`,
annotation targeting `svc2` in namespace `ns2` exposing 9090 with named
target port `web` resolved via a pod container port — the builder produces
one model whose identity key is `ns2_app` (the TARGET SERVICE's namespace
with the ingress's name), not the claimed `ns_app` built from the Ingress's
own namespace. -/
theorem C5_direct_key_counterexample :
    createDirectLoxiModelList storeC5 ingC5 = .ok [mC5] ∧
    ingC5.ns ++ "_" ++ ingC5.name = "ns_app" ∧
    mC5.service.name ≠ "ns_app" := by
  refine ⟨by decide, by decide, by decide⟩

/-- C5 (amended): in the direct-service scenario the builder produces exactly
one model with identity key `ns2_app` — the resolved target-service
namespace joined with the Ingress's name — external IP `0.0.0.0`, exposed
port 9090, and the endpoint resolved to the container's numeric port 9090. -/
theorem C5_direct_scenario_amended :
    createDirectLoxiModelList storeC5 ingC5 = .ok [mC5] ∧
    mC5.service.name = directSvcNs ingC5 ++ "_" ++ ingC5.name ∧
    mC5.service.externalIP = "0.0.0.0" ∧
    mC5.service.port = 9090 ∧
    mC5.endpoints = [{ endpointIP := "10.0.0.5", targetPort := 9090, weight := 1 }] := by
  refine ⟨by decide, by decide, rfl, rfl, rfl⟩

/-- C6 (counterexample): the backend declares port 9999, which matches none
of the endpoint subset's port records (only 8080 is listed), yet the
path-routed builder succeeds and produces the rule with every endpoint at
port 9999 — no `PortResolutionError` (or any error) is raised, refuting the
claimed failure on a literal port mismatch. -/
theorem C6_port_counterexample :
    createLoxiModelList storeC6 "192.168.1.1" ingC6 = .ok [mC6] ∧
    mC6.endpoints = [{ endpointIP := "10.0.0.5", targetPort := 9999, weight := 1 }] ∧
    epC6.subsets.all (fun s => s.ports.all (fun p => p.port ≠ 9999)) = true := by
  refine ⟨rfl, rfl, by decide⟩

/-- C6 (amended): path-routed endpoint resolution uses the backend's declared
numeric port only — no named-port resolution — and attaches that port
verbatim to every ready address without consulting the subset's port
records; the only failure on a fetched Endpoints object is the absence of
ready addresses, not a port mismatch. -/
theorem C6_endpoint_resolution_amended :
    (∀ (subsets : List EndpointSubset) (targetPort : Int),
      endpointsFromSubsets subsets targetPort =
        (addressesOf subsets).map
          (fun addr => { endpointIP := addr.ip, targetPort := uint16OfInt targetPort,
                         weight := 1 })) ∧
    (∀ (store : ObjectStore) (ns name : String) (targetPort : Int) (ep : Endpoints),
      store.getEndpoints ns name = some ep →
      createLoxiLoadBalancerEndpointsWithTargetPort store ns name targetPort =
        if addressesOf ep.subsets = [] then .error (.noEndpoints ns name)
        else .ok ((addressesOf ep.subsets).map
          (fun addr => { endpointIP := addr.ip, targetPort := uint16OfInt targetPort,
                         weight := 1 }))) := by
  refine ⟨endpointsFromSubsets_eq_map, ?_⟩
  intro store ns name targetPort ep hget
  unfold createLoxiLoadBalancerEndpointsWithTargetPort
  rw [hget]
  dsimp only
  rw [endpointsFromSubsets_eq_map]
  by_cases hnil : addressesOf ep.subsets = []
  · simp [hnil]
  · have hlen : ¬ ((addressesOf ep.subsets).map
        (fun addr => ({ endpointIP := addr.ip, targetPort := uint16OfInt targetPort,
                        weight := 1 } : LoadBalancerEndpoint))).length ≤ 0 := by
      simp only [List.length_map, Nat.le_zero, List.length_eq_zero]
      exact hnil
    rw [if_neg hlen, if_neg hnil]

/-- C6 (amended, witness): on the mismatched-port scenario's store the
resolver returns exactly the ready address paired with the declared port. -/
theorem C6_endpoint_resolution_amended_witness :
    createLoxiLoadBalancerEndpointsWithTargetPort storeC6 "ns" "svc" 9999 =
      if addressesOf epC6.subsets = [] then .error (.noEndpoints "ns" "svc")
      else .ok ((addressesOf epC6.subsets).map
        (fun addr => { endpointIP := addr.ip, targetPort := uint16OfInt 9999,
                       weight := 1 })) :=
  C6_endpoint_resolution_amended.2 storeC6 "ns" "svc" 9999 epC6 rfl

/-- C7: in the apply loop, a `Create` response equal to the already-exists
condition is swallowed — the model counts as applied and the loop continues
with the remaining models, surfacing only what the rest surfaces — while any
other `Create` failure stops the loop at that model and surfaces that
error. -/
theorem C7_apply_error_handling :
    (∀ (createResult : LoadBalancerModel → Option String) (model : LoadBalancerModel)
        (rest : List LoadBalancerModel),
      createResult model = some "lbrule-exists error" →
      applyLoop createResult (model :: rest) =
        (model :: (applyLoop createResult rest).1, (applyLoop createResult rest).2)) ∧
    (∀ (createResult : LoadBalancerModel → Option String) (model : LoadBalancerModel)
        (rest : List LoadBalancerModel) (msg : String),
      createResult model = some msg → msg ≠ "lbrule-exists error" →
      applyLoop createResult (model :: rest) = ([model], some msg)) := by
  constructor
  · intro createResult model rest hcr
    conv_lhs => rw [applyLoop]
    rw [hcr]
    simp
  · intro createResult model rest msg hcr hne
    conv_lhs => rw [applyLoop]
    rw [hcr]
    simp [hne]

/-- C7 (witness): a hard `Create` failure aborts the loop immediately with
that error, while an already-exists response lets it run to completion. -/
theorem C7_apply_error_handling_witness :
    applyLoop crBoom [plainRuleC1, mC8] = ([plainRuleC1], some "boom") ∧
    applyLoop crExists [plainRuleC1] = ([plainRuleC1], none) := by
  constructor
  · exact C7_apply_error_handling.2 crBoom plainRuleC1 [mC8] "boom" rfl (by decide)
  · rw [C7_apply_error_handling.1 crExists plainRuleC1 [] rfl]
    rfl

/-- C8: every model the path-routed builder produces is exposed on port 80
exactly when its security flag is 0 (plaintext) and on port 443 exactly when
it is 1 (TLS-terminated), independent of the backend's declared port. -/
theorem C8_fixed_ports (store : ObjectStore) (loxiHost : String) (ingress : Ingress)
    (models : List LoadBalancerModel)
    (hok : createLoxiModelList store loxiHost ingress = .ok models) :
    ∀ m ∈ models,
      (m.service.security = 0 ∧ m.service.port = 80) ∨
      (m.service.security = 1 ∧ m.service.port = 443) := by
  intro m hm
  obtain ⟨host, sec, lbName, eps, hshape, hcase, -⟩ :=
    createLoxiModelList_shape store loxiHost ingress models hok m hm
  subst hshape
  rcases hcase with ⟨hs, -⟩ | ⟨hs, -⟩
  · subst hs
    exact Or.inl ⟨rfl, rfl⟩
  · subst hs
    exact Or.inr ⟨rfl, rfl⟩

/-- C8 (witness): the TLS scenario's model (backend port 8080) is secured
and exposed on 443. -/
theorem C8_fixed_ports_witness :
    (mC8.service.security = 0 ∧ mC8.service.port = 80) ∨
    (mC8.service.security = 1 ∧ mC8.service.port = 443) :=
  C8_fixed_ports storeC8 "192.168.1.1" ingC8 [mC8] rfl mC8 (by simp)

/-- C9 (counterexample): the status source reports exactly one entry and it
already appears in the RouteSource's recorded status (same non-empty IP),
yet the status write is still issued (with the unchanged status) — refuting
the claim that no write happens when every entry is a duplicate. -/
theorem C9_status_counterexample :
    checkIngressLoadBalancerIngressExist ingC9.status entryDupC9 = true ∧
    svcC9.status = [entryDupC9] ∧
    updateIngressStatus storeC9 ingC9 = .write ingC9.status := by
  refine ⟨by decide, rfl, by decide⟩

/-- C9 (amended): the status reflector skips every status-source entry that
already appears (non-empty recorded IP equal to the entry's IP, or non-empty
recorded hostname equal to its hostname, against the status as accumulated
so far), but the status write is issued UNCONDITIONALLY once the status
source service has been fetched — also when every entry was a duplicate and
the status is unchanged. -/
theorem C9_status_amended :
    (∀ (status entries : List LBIngressEntry),
      (∀ e ∈ entries, checkIngressLoadBalancerIngressExist status e = true) →
      appendNewEntries status entries = status) ∧
    (∀ (store : ObjectStore) (ingress : Ingress) (lbNs lbName : String) (svc : Service),
      resolveStatusSourceKey ingress = some (lbNs, lbName) →
      store.getService lbNs lbName = some svc →
      updateIngressStatus store ingress = .write (appendNewEntries ingress.status svc.status)) := by
  constructor
  · intro status entries hdup
    induction entries with
    | nil => rfl
    | cons e rest ih =>
      unfold appendNewEntries
      rw [if_pos (hdup e (by simp))]
      exact ih (fun e' he' => hdup e' (by simp [he']))
  · intro store ingress lbNs lbName svc hkey hget
    unfold updateIngressStatus
    rw [hkey]
    dsimp only
    rw [hget]

/-- C9 (amended, witness): with two status-source entries that both already
appear (one by IP, one by hostname), the pass still issues the write, with
the status unchanged. -/
theorem C9_status_amended_witness :
    updateIngressStatus storeC9w ingC9w = .write ingC9w.status := by
  rw [C9_status_amended.2 storeC9w ingC9w "default" "lbsvc" svcC9w rfl rfl]
  rw [C9_status_amended.1 ingC9w.status svcC9w.status (by decide)]

/-- C10: a rule whose HTTP section is nil is silently skipped wherever it
occurs in the rule list — it contributes no models and raises no error, and
the remaining rules are processed exactly as without it; the path-routed
builder is the rule-loop applied to the ingress's rules. -/
theorem C10_nil_http_skipped :
    (∀ (store : ObjectStore) (loxiHost : String) (ingress : Ingress)
        (front : List IngressRule) (host : String) (rest : List IngressRule),
      createLoxiModelListRules store loxiHost ingress
          (front ++ { host := host, http := none } :: rest) =
        createLoxiModelListRules store loxiHost ingress (front ++ rest)) ∧
    (∀ (store : ObjectStore) (loxiHost : String) (ingress : Ingress),
      createLoxiModelList store loxiHost ingress =
        createLoxiModelListRules store loxiHost ingress ingress.rules) := by
  constructor
  · intro store loxiHost ingress front host rest
    induction front with
    | nil => rfl
    | cons rule front ih =>
      cases hhttp : rule.http with
      | none =>
        simp only [List.cons_append, createLoxiModelListRules, hhttp]
        exact ih
      | some paths =>
        simp only [List.cons_append, createLoxiModelListRules, hhttp, List.append_eq]
        rw [ih]
  · intro store loxiHost ingress
    rfl

end LoxilbIngress
